import Mathlib

/-!
Verification of the generated CRUD controllers of this repository
(`src/controller/admin/BlogController.js`,
`src/controller/device/v1/TaskController.js`, and the Joi schema
declarations of `src/utils/validation/TaskValidation.js`).

The controllers are embedded shallowly: request bodies are JSON-like
values, JavaScript objects are association lists of string keys, and each
controller action is a pure function from a request and a store oracle to
the pair (responses emitted, store calls issued).  The external document
store is abstracted by an oracle; a concrete, spec-modelled store
semantics (`dbOracle`) is supplied for the claims that speak about the
state of the store.
-/

namespace LearnGit

/-- A JSON-like JavaScript value as it occurs in request bodies and store
payloads.  `vUndef` models the JavaScript `undefined` (an absent path
parameter spliced into an object literal, for instance); `vNull` models
`null`.  Numbers are modelled as integers, which covers every numeric
value the controllers and schemas manipulate. -/
inductive Value where
  | vUndef : Value
  | vNull : Value
  | vStr : String → Value
  | vNum : Int → Value
  | vBool : Bool → Value
  | vArr : List Value → Value
  | vObj : List (String × Value) → Value

/-- A JavaScript object: an association list from keys to values.  Field
update (`Obj.set`) removes every earlier binding of the key and appends
the new one, so `Obj.get` is the observable the theorems speak about;
JavaScript's key-ordering details are irrelevant to every property
proved here. -/
abbrev Obj := List (String × Value)

/-- Property lookup: the value bound to `key`, if any. -/
def Obj.get : Obj → String → Option Value
  | [], _ => none
  | (k, v) :: rest, key => if k = key then some v else Obj.get rest key

/-- The JavaScript `delete o[key]` operator: removes every binding of
`key`. -/
def Obj.del : Obj → String → Obj
  | [], _ => []
  | (k, v) :: rest, key =>
      if k = key then Obj.del rest key else (k, v) :: Obj.del rest key

/-- Property assignment `o[key] = v` (also the effect of a later entry in
an object-spread literal overriding an earlier one). -/
def Obj.set (o : Obj) (key : String) (v : Value) : Obj :=
  Obj.del o key ++ [(key, v)]

/-- JavaScript truthiness of a value. -/
def Value.truthy : Value → Bool
  | .vUndef => false
  | .vNull => false
  | .vStr s => !(s = "")
  | .vNum n => !(n = 0)
  | .vBool b => b
  | .vArr _ => true
  | .vObj _ => true

/-- Truthiness of an optional value (`none` is an absent property, i.e.
`undefined`, hence falsy). -/
def truthyOpt : Option Value → Bool
  | none => false
  | some v => v.truthy

/-- `Array.isArray`. -/
def isArray : Option Value → Bool
  | some (.vArr _) => true
  | _ => false

/-- `typeof v === 'object' && v !== null`: true exactly for objects and
arrays (`typeof null` is `'object'` but the null check excludes it). -/
def isObjTypeof : Value → Bool
  | .vObj _ => true
  | .vArr _ => true
  | _ => false

/-- The enumerable own properties contributed by `{...v}` when `v` is not
a plain object: arrays and strings contribute index keys, primitives
contribute nothing. -/
def spreadVal : Value → Obj
  | .vObj o => o
  | .vArr xs => (xs.enum.map fun p => (toString p.1, p.2))
  | .vStr s => (s.toList.enum.map fun p => (toString p.1, Value.vStr (String.singleton p.2)))
  | _ => []

/-- Splicing a possibly-absent path parameter into an object literal:
`{ _id: req.params.id }` yields `undefined` when the parameter is
absent. -/
def optToVal : Option String → Value
  | none => .vUndef
  | some s => .vStr s

/-! Field-name and message constants used by the controllers. -/

def kAddedBy : String := "addedBy"
def kUpdatedBy : String := "updatedBy"
def kIsDeleted : String := "isDeleted"
def kIsActive : String := "isActive"
def kId : String := "_id"
def kData : String := "data"
def kIds : String := "ids"
def kFilter : String := "filter"
def kQuery : String := "query"
def kWhere : String := "where"
def kIsCountOnly : String := "isCountOnly"
def kOptions : String := "options"
def kCount : String := "count"
def kTotalRecords : String := "totalRecords"
def kIn : String := "$in"
def kTitle : String := "title"
def kDescription : String := "description"
def kAttachments : String := "attachments"
def kStatus : String := "status"
def kDate : String := "date"
def kDueDate : String := "dueDate"
def kCompletedBy : String := "completedBy"
def kCompletedAt : String := "completedAt"

def mInvalidObjectId : String := "invalid objectId."
def mIdRequired : String := "Insufficient request parameters! id is required."
def mInvalidVals : String := "Invalid values in parameters, "

/-! ## Schema validation

The Joi schema declarations are in `src/utils/validation/TaskValidation.js`;
the wrapper `validateParamsWithJoi` lives in `utils/validateRequest.js`,
which is not part of the sources, so its behaviour is modelled from the
spec (section 4.1). -/

/-- Is `c` a hexadecimal digit? -/
def isHexChar (c : Char) : Bool :=
  c.isDigit || (97 ≤ c.toNat && c.toNat ≤ 102) || (65 ≤ c.toNat && c.toNat ≤ 70)

/-- The 24-character hexadecimal identifier pattern
`/^[0-9a-fA-F]\x7b24\x7d$/` used throughout the schemas. -/
def isHex24 (s : String) : Bool :=
  decide (s.length = 24) && s.toList.all isHexChar

/-- Modelled from the spec: `ObjectId.isValid` of the external `mongodb`
driver.  Section 6 fixes the identifier contract to the 24-character
hexadecimal store-assigned format; a missing (`undefined`) parameter is
not a valid identifier. -/
def objectIdIsValid : Option String → Bool
  | none => false
  | some s => isHex24 s

/-- The per-field constraint kinds occurring in the Joi schemas of
`TaskValidation.js`. -/
inductive FieldCheck where
  | fString : FieldCheck
  | fArray : FieldCheck
  | fIntAllow0 : FieldCheck
  | fDate : FieldCheck
  | fHex24 : FieldCheck
  | fHex24Strict : FieldCheck
  | fBool : FieldCheck
  | fAny : FieldCheck

/-- Does a present value satisfy a declared field constraint?  `dateOk`
abstracts the JavaScript date parser used by `joi.date()` in convert
mode (an external runtime facility).  Joi in convert mode also accepts
integer-looking strings for `joi.number().integer()` and the literal
`true`/`false` strings for `joi.boolean()`.  A present `undefined` value
is treated as absent by Joi and never reaches this check. -/
def checkField (dateOk : String → Bool) : FieldCheck → Value → Bool
  | .fString, .vNull => true
  | .fString, .vStr _ => true
  | .fString, _ => false
  | .fArray, .vArr _ => true
  | .fArray, _ => false
  | .fIntAllow0, .vNum _ => true
  | .fIntAllow0, .vStr s => (s.toInt?).isSome
  | .fIntAllow0, _ => false
  | .fDate, .vNull => true
  | .fDate, .vNum _ => true
  | .fDate, .vStr s => decide (s = "") || dateOk s
  | .fDate, _ => false
  | .fHex24, .vNull => true
  | .fHex24, .vStr s => decide (s = "") || isHex24 s
  | .fHex24, _ => false
  | .fHex24Strict, .vStr s => isHex24 s
  | .fHex24Strict, _ => false
  | .fBool, .vBool _ => true
  | .fBool, .vStr s => decide (s = "true") || decide (s = "false")
  | .fBool, _ => false
  | .fAny, _ => true

/-- A schema: the declared fields and their constraints.  Fields not
listed are unknown; the source schemas end in `.unknown(true)`. -/
abbrev Schema := List (String × FieldCheck)

/-- `exports.schemaKeys` of `TaskValidation.js`. -/
def taskSchemaKeys : Schema :=
  [(kTitle, .fString), (kDescription, .fString), (kAttachments, .fArray),
   (kStatus, .fIntAllow0), (kDate, .fDate), (kDueDate, .fDate),
   (kCompletedBy, .fHex24), (kCompletedAt, .fDate),
   (kIsActive, .fBool), (kIsDeleted, .fBool)]

/-- `exports.updateSchemaKeys` of `TaskValidation.js`: the creation
fields plus the `_id` pattern. -/
def taskUpdateSchemaKeys : Schema :=
  taskSchemaKeys ++ [(kId, .fHex24Strict)]

/-- The structured validity result `\x7bisValid, message\x7d`. -/
structure ValidationResult where
  isValid : Bool
  message : String

/-- Modelled from the spec: `validation.validateParamsWithJoi` of
`utils/validateRequest.js` (not under `src/`).  Per section 4.1 it
checks each declared field that is present in the payload against its
constraint, reports the first violation by name, rejects nothing else
(the schemas are `.unknown(true)`), and accepts the empty payload (all
fields are optional).  A present `undefined` value counts as absent. -/
def validateParamsWithJoi (dateOk : String → Bool) (payload : Obj)
    (schema : Schema) : ValidationResult :=
  match schema.find? (fun kc =>
      match Obj.get payload kc.1 with
      | none => false
      | some .vUndef => false
      | some v => !(checkField dateOk kc.2 v)) with
  | some kc => { isValid := false, message := kc.1 ++ " is invalid" }
  | none => { isValid := true, message := "" }

/-- A declared filter field accepts an array (one-of), the base type, or
an object (store-native comparison), per the `joi.alternatives()` rows
of `findFilterKeys`. -/
def filterFieldOk (dateOk : String → Bool) (c : FieldCheck) : Value → Bool
  | .vArr _ => true
  | .vObj _ => true
  | v => checkField dateOk c v

/-- The per-field base constraints of `exports.findFilterKeys` in
`TaskValidation.js` (applied to the `query` and `where` sub-objects). -/
def taskFindFilterKeys : Schema :=
  [(kTitle, .fString), (kDescription, .fString), (kAttachments, .fArray),
   (kStatus, .fIntAllow0), (kDate, .fDate), (kDueDate, .fDate),
   (kCompletedBy, .fHex24), (kCompletedAt, .fDate),
   (kIsActive, .fBool), (kIsDeleted, .fBool),
   ("id", .fAny), (kId, .fHex24Strict)]

/-- Modelled from the spec: `validation.validateFilterWithJoi` of
`utils/validateRequest.js` (not under `src/`).  It validates the
declared filter fields of the `query`/`where` sub-objects of the body
(section 4.1, filter kind); everything else in the body is permitted. -/
def validateFilterWithJoi (dateOk : String → Bool) (body : Obj)
    (keys : Schema) : ValidationResult :=
  let checkSub (sub : String) : Option String :=
    match Obj.get body sub with
    | some (.vObj o) =>
        (keys.find? (fun kc =>
          match Obj.get o kc.1 with
          | none => false
          | some .vUndef => false
          | some v => !(filterFieldOk dateOk kc.2 v))).map (·.1)
    | _ => none
  match checkSub kQuery with
  | some k => { isValid := false, message := k ++ " is invalid" }
  | none =>
    match checkSub kWhere with
    | some k => { isValid := false, message := k ++ " is invalid" }
    | none => { isValid := true, message := "" }

/-! ## Store interface

`utils/dbService.js` is not part of the sources; the controllers are
therefore parameterized by an oracle giving the outcome of each store
primitive (`Except.error` models a thrown store failure).  Which calls a
controller action issues, and with which payloads, is recorded in a
trace. -/

/-- A call issued to the data-access facade, with its payload.
`dbService.create` accepts a single draft or a list of drafts; the two
usages are distinguished here. -/
inductive StoreCall where
  | createOne (draft : Obj)
  | createMany (drafts : List Obj)
  | findOne (query : Obj) (options : Obj)
  | countDocs (query : Obj)
  | paginateDocs (query : Obj) (options : Obj)
  | updateOne (query : Obj) (update : Obj)
  | updateMany (filter : Obj) (update : Obj)
  | deleteOne (query : Obj)
  | deleteManyDocs (query : Obj)

/-- Outcomes of the store primitives.  `updateMany`, `deleteMany` and
`count` return counts, `findOne`/`updateOne`/`deleteOne` return the
affected record or nothing, `paginate` returns a page object carrying a
`data` array (spec section 4.3). -/
structure StoreOracle where
  onCreateOne : Obj → Except String Obj
  onCreateMany : List Obj → Except String (List Obj)
  onFindOne : Obj → Obj → Except String (Option Obj)
  onCount : Obj → Except String Nat
  onPaginate : Obj → Obj → Except String (Option Obj)
  onUpdateOne : Obj → Obj → Except String (Option Obj)
  onUpdateMany : Obj → Obj → Except String Nat
  onDeleteOne : Obj → Except String (Option Obj)
  onDeleteMany : Obj → Except String Nat

/-- The response shapes of the external response formatter; this layer
only chooses which constructor to invoke and with what payload. -/
inductive Response where
  | success (data : Value)
  | recordNotFound
  | validationError (message : String)
  | badRequest (message : Option String)
  | internalServerError (message : String)

/-- What a controller action did: the responses it emitted, in order
(exactly one on every healthy path), and the store calls it issued. -/
abbrev Trace := List Response × List StoreCall

/-- The parts of the request a controller action reads: the `id` path
parameter (absent when the route did not bind one), the parsed JSON
body (the body-parser middleware always supplies an object), and the
authenticated caller identifier `req.user.id`. -/
structure Request where
  paramsId : Option String
  body : Obj
  userId : Value

/-- Truthiness of `req.params.id` (`undefined` and the empty string are
falsy). -/
def truthyParam : Option String → Bool
  | none => false
  | some s => !(s = "")

/-- Modelled from the spec: `new Task(...)`/`new Blog(...)` — the model
modules are not under `src/`.  Per section 3 the entity record carries
the draft's fields, so construction is the identity on the payload. -/
def entityNew (d : Obj) : Obj := d

/-! ## Controller actions

One generic definition per action, shared by `BlogController.js` and
`TaskController.js`, whose twelve action bodies are textually identical
up to the entity name; the per-entity schema is a parameter.  Each
definition mirrors its source line by line; the surrounding
`try/catch` is the mapping of every `.error` store outcome to
`internalServerError` with the underlying message. -/

/-- `addTask` / `addBlog` (`TaskController.js:19`). -/
def addEntity (schema : Schema) (dateOk : String → Bool) (st : StoreOracle)
    (req : Request) : Trace :=
  let dataToCreate := req.body
  let v := validateParamsWithJoi dateOk dataToCreate schema
  if !v.isValid then
    ([.validationError (mInvalidVals ++ v.message)], [])
  else
    let dataToCreate := Obj.set dataToCreate kAddedBy req.userId
    let dataToCreate := entityNew dataToCreate
    match st.onCreateOne dataToCreate with
    | .error e => ([.internalServerError e], [.createOne dataToCreate])
    | .ok created => ([.success (.vObj created)], [.createOne dataToCreate])

/-- `bulkInsertTask` / `bulkInsertBlog` (`TaskController.js:43`): the
guard rejects a missing, non-array or empty `data`; otherwise every
draft gets `addedBy` from the caller identity. -/
def bulkInsertEntity (st : StoreOracle) (req : Request) : Trace :=
  match Obj.get req.body kData with
  | some (.vArr ds) =>
      if ds.length < 1 then ([.badRequest none], [])
      else
        let drafts := ds.map (fun d => Obj.set (spreadVal d) kAddedBy req.userId)
        match st.onCreateMany drafts with
        | .error e => ([.internalServerError e], [.createMany drafts])
        | .ok created =>
            ([.success (.vObj [(kCount, .vNum created.length)])],
             [.createMany drafts])
  | _ => ([.badRequest none], [])

/-- Does the paginate result pass
`foundTasks && foundTasks.data && foundTasks.data.length`? -/
def pageHasData : Option Obj → Bool
  | none => false
  | some r =>
      match Obj.get r kData with
      | some (.vArr xs) => !(xs.length = 0)
      | some (.vStr s) => !(s.length = 0)
      | _ => false

/-- `findAllTask` / `findAllBlog` (`TaskController.js:69`). -/
def findAllEntity (filterKeys : Schema) (dateOk : String → Bool)
    (st : StoreOracle) (req : Request) : Trace :=
  let v := validateFilterWithJoi dateOk req.body filterKeys
  if !v.isValid then ([.validationError v.message], [])
  else
    let query := match Obj.get req.body kQuery with
      | some q => if isObjTypeof q then spreadVal q else []
      | none => []
    if truthyOpt (Obj.get req.body kIsCountOnly) then
      match st.onCount query with
      | .error e => ([.internalServerError e], [.countDocs query])
      | .ok n =>
          ([.success (.vObj [(kTotalRecords, .vNum n)])], [.countDocs query])
    else
      let options := match Obj.get req.body kOptions with
        | some o => if isObjTypeof o then spreadVal o else []
        | none => []
      match st.onPaginate query options with
      | .error e => ([.internalServerError e], [.paginateDocs query options])
      | .ok none => ([.recordNotFound], [.paginateDocs query options])
      | .ok (some r) =>
          if pageHasData (some r) then
            ([.success (.vObj r)], [.paginateDocs query options])
          else ([.recordNotFound], [.paginateDocs query options])

/-- `getTask` / `getBlog` (`TaskController.js:107`): the only
by-identifier action that checks `ObjectId.isValid`. -/
def getEntity (st : StoreOracle) (req : Request) : Trace :=
  if !(objectIdIsValid req.paramsId) then
    ([.validationError mInvalidObjectId], [])
  else
    let query := [(kId, optToVal req.paramsId)]
    match st.onFindOne query [] with
    | .error e => ([.internalServerError e], [.findOne query []])
    | .ok none => ([.recordNotFound], [.findOne query []])
    | .ok (some d) => ([.success (.vObj d)], [.findOne query []])

/-- `getTaskCount` / `getBlogCount` (`TaskController.js:132`). -/
def getCountEntity (filterKeys : Schema) (dateOk : String → Bool)
    (st : StoreOracle) (req : Request) : Trace :=
  let v := validateFilterWithJoi dateOk req.body filterKeys
  if !v.isValid then ([.validationError v.message], [])
  else
    let whereQ := match Obj.get req.body kWhere with
      | some w => if isObjTypeof w then spreadVal w else []
      | none => []
    match st.onCount whereQ with
    | .error e => ([.internalServerError e], [.countDocs whereQ])
    | .ok n => ([.success (.vObj [(kCount, .vNum n)])], [.countDocs whereQ])

/-- `updateTask` / `updateBlog` (`TaskController.js:158`): note that the
body is merged as-is (no `addedBy` stripping) and that the path
identifier is used without any format check. -/
def updateEntity (schema : Schema) (dateOk : String → Bool) (st : StoreOracle)
    (req : Request) : Trace :=
  let dataToUpdate := Obj.set req.body kUpdatedBy req.userId
  let v := validateParamsWithJoi dateOk dataToUpdate schema
  if !v.isValid then
    ([.validationError (mInvalidVals ++ v.message)], [])
  else
    let query := [(kId, optToVal req.paramsId)]
    match st.onUpdateOne query dataToUpdate with
    | .error e => ([.internalServerError e], [.updateOne query dataToUpdate])
    | .ok none => ([.recordNotFound], [.updateOne query dataToUpdate])
    | .ok (some d) => ([.success (.vObj d)], [.updateOne query dataToUpdate])

/-- The filter of a bulk update:
`req.body && req.body.filter ? \x7b ...req.body.filter \x7d : \x7b\x7d`. -/
def bulkFilterOf (body : Obj) : Obj :=
  match Obj.get body kFilter with
  | some f => if f.truthy then spreadVal f else []
  | none => []

/-- The `dataToUpdate` of a bulk update: the source initializes it to an
empty object, deletes `addedBy` from that still-empty object (a dead
statement), and then — when `req.body.data` is of object type — replaces
it wholesale by `\x7b ...req.body.data, updatedBy \x7d`, so a caller's
`addedBy` inside `data` survives into the merged payload. -/
def bulkDataOf (uid : Value) (body : Obj) : Obj :=
  match Obj.get body kData with
  | some d =>
      if isObjTypeof d then Obj.set (spreadVal d) kUpdatedBy uid
      else Obj.del [] kAddedBy
  | none => Obj.del [] kAddedBy

/-- `bulkUpdateTask` / `bulkUpdateBlog` (`TaskController.js:188`). -/
def bulkUpdateEntity (st : StoreOracle) (req : Request) : Trace :=
  let filter := bulkFilterOf req.body
  let dataToUpdate := bulkDataOf req.userId req.body
  match st.onUpdateMany filter dataToUpdate with
  | .error e => ([.internalServerError e], [.updateMany filter dataToUpdate])
  | .ok n =>
      if n = 0 then ([.recordNotFound], [.updateMany filter dataToUpdate])
      else
        ([.success (.vObj [(kCount, .vNum n)])],
         [.updateMany filter dataToUpdate])

/-- `partialUpdateTask` / `partialUpdateBlog` (`TaskController.js:215`):
the missing-identifier branch invokes `res.badRequest` WITHOUT `return`
(the defect recorded in spec section 9), so execution continues into
validation and the store call; `addedBy` is stripped from the body. -/
def partialUpdateEntity (schema : Schema) (dateOk : String → Bool)
    (st : StoreOracle) (req : Request) : Trace :=
  let pre : List Response :=
    if !(truthyParam req.paramsId) then [.badRequest (some mIdRequired)]
    else []
  let bodyStripped := Obj.del req.body kAddedBy
  let dataToUpdate := Obj.set bodyStripped kUpdatedBy req.userId
  let v := validateParamsWithJoi dateOk dataToUpdate schema
  if !v.isValid then
    (pre ++ [.validationError (mInvalidVals ++ v.message)], [])
  else
    let query := [(kId, optToVal req.paramsId)]
    match st.onUpdateOne query dataToUpdate with
    | .error e =>
        (pre ++ [.internalServerError e], [.updateOne query dataToUpdate])
    | .ok none => (pre ++ [.recordNotFound], [.updateOne query dataToUpdate])
    | .ok (some d) =>
        (pre ++ [.success (.vObj d)], [.updateOne query dataToUpdate])

/-- The `updateBody` object literal of the soft-delete actions: exactly
`isDeleted: true` plus the actor identifier. -/
def softDeleteUpdateBody (uid : Value) : Obj :=
  [(kIsDeleted, .vBool true), (kUpdatedBy, uid)]

/-- `softDeleteTask` / `softDeleteBlog` (`TaskController.js:248`): an
update setting exactly `isDeleted: true` and `updatedBy`. -/
def softDeleteEntity (st : StoreOracle) (req : Request) : Trace :=
  if !(truthyParam req.paramsId) then ([.badRequest (some mIdRequired)], [])
  else
    let query := [(kId, optToVal req.paramsId)]
    let updateBody : Obj := softDeleteUpdateBody req.userId
    match st.onUpdateOne query updateBody with
    | .error e => ([.internalServerError e], [.updateOne query updateBody])
    | .ok none => ([.recordNotFound], [.updateOne query updateBody])
    | .ok (some d) => ([.success (.vObj d)], [.updateOne query updateBody])

/-- `deleteTask` / `deleteBlog` (`TaskController.js:274`). -/
def deleteEntity (st : StoreOracle) (req : Request) : Trace :=
  if !(truthyParam req.paramsId) then ([.badRequest (some mIdRequired)], [])
  else
    let query := [(kId, optToVal req.paramsId)]
    match st.onDeleteOne query with
    | .error e => ([.internalServerError e], [.deleteOne query])
    | .ok none => ([.recordNotFound], [.deleteOne query])
    | .ok (some d) => ([.success (.vObj d)], [.deleteOne query])

/-- `deleteManyTask` / `deleteManyBlog` (`TaskController.js:298`). -/
def deleteManyEntity (st : StoreOracle) (req : Request) : Trace :=
  match Obj.get req.body kIds with
  | some (.vArr xs) =>
      if xs.length < 1 then ([.badRequest none], [])
      else
        let query := [(kId, Value.vObj [(kIn, .vArr xs)])]
        match st.onDeleteMany query with
        | .error e => ([.internalServerError e], [.deleteManyDocs query])
        | .ok n =>
            if n = 0 then ([.recordNotFound], [.deleteManyDocs query])
            else
              ([.success (.vObj [(kCount, .vNum n)])], [.deleteManyDocs query])
  | _ => ([.badRequest none], [])

/-- `softDeleteManyTask` / `softDeleteManyBlog` (`TaskController.js:320`). -/
def softDeleteManyEntity (st : StoreOracle) (req : Request) : Trace :=
  match Obj.get req.body kIds with
  | some (.vArr xs) =>
      if xs.length < 1 then ([.badRequest none], [])
      else
        let query := [(kId, Value.vObj [(kIn, .vArr xs)])]
        let updateBody : Obj := softDeleteUpdateBody req.userId
        match st.onUpdateMany query updateBody with
        | .error e => ([.internalServerError e], [.updateMany query updateBody])
        | .ok n =>
            if n = 0 then ([.recordNotFound], [.updateMany query updateBody])
            else
              ([.success (.vObj [(kCount, .vNum n)])],
               [.updateMany query updateBody])
  | _ => ([.badRequest none], [])

/-! The Task instances (the Blog instances are the same functions applied
to the Blog schemas, which live outside `src/`). -/

def addTask : (String → Bool) → StoreOracle → Request → Trace :=
  addEntity taskSchemaKeys

def bulkInsertTask : StoreOracle → Request → Trace := bulkInsertEntity

def findAllTask : (String → Bool) → StoreOracle → Request → Trace :=
  findAllEntity taskFindFilterKeys

def getTask : StoreOracle → Request → Trace := getEntity

def getTaskCount : (String → Bool) → StoreOracle → Request → Trace :=
  getCountEntity taskFindFilterKeys

def updateTask : (String → Bool) → StoreOracle → Request → Trace :=
  updateEntity taskUpdateSchemaKeys

def bulkUpdateTask : StoreOracle → Request → Trace := bulkUpdateEntity

def partialUpdateTask : (String → Bool) → StoreOracle → Request → Trace :=
  partialUpdateEntity taskUpdateSchemaKeys

def softDeleteTask : StoreOracle → Request → Trace := softDeleteEntity

def deleteTask : StoreOracle → Request → Trace := deleteEntity

def deleteManyTask : StoreOracle → Request → Trace := deleteManyEntity

def softDeleteManyTask : StoreOracle → Request → Trace := softDeleteManyEntity

/-! ## Spec-modelled store semantics

`utils/dbService.js` is not under `src/`; the following definitions are
modelled from the spec (sections 3, 4.2 and 4.3): the store is a list of
records, a query field matches by equality, by membership for a
store-native `$in` expression, and updates merge the partial record into
the matched record(s) without removing anything. -/

/-- Equality test between a record field and a query value, as used by
the spec-modelled matcher.  The queries these controllers build compare
identifier strings, so only primitive values compare equal; array and
object query values play the member-of and comparison-operator roles
instead (spec section 4.2). -/
def Value.primEq : Value → Value → Bool
  | .vUndef, .vUndef => true
  | .vNull, .vNull => true
  | .vStr a, .vStr b => a = b
  | .vNum a, .vNum b => a = b
  | .vBool a, .vBool b => a = b
  | _, _ => false

/-- Modelled from the spec: does record `doc` satisfy the query binding
`key ↦ qv`?  An object query value is a store-native comparison; the
one the controllers build is `$in` (membership). -/
def matchField (doc : Obj) (key : String) (qv : Value) : Bool :=
  match qv with
  | .vObj qo =>
      match Obj.get qo kIn with
      | some (.vArr xs) =>
          match Obj.get doc key with
          | some dv => xs.any (fun x => Value.primEq x dv)
          | none => false
      | _ => false
  | _ =>
      match Obj.get doc key with
      | some dv => Value.primEq dv qv
      | none => false

/-- Modelled from the spec: a record matches a query when it satisfies
every binding of the query object. -/
def matchQ (q : Obj) (doc : Obj) : Bool :=
  q.all (fun kv => matchField doc kv.1 kv.2)

/-- Modelled from the spec: merging a partial record into a record —
each field of the update overwrites the record's field. -/
def mergeObj (doc u : Obj) : Obj :=
  u.foldl (fun d kv => Obj.set d kv.1 kv.2) doc

/-- Modelled from the spec: `dbService.updateOne` — merge the partial
record into the first matching record; result is the updated record, or
`none` when nothing matches, together with the new store contents. -/
def dbUpdateOne : List Obj → Obj → Obj → Option Obj × List Obj
  | [], _, _ => (none, [])
  | d :: ds, q, u =>
      if matchQ q d then (some (mergeObj d u), mergeObj d u :: ds)
      else
        let r := dbUpdateOne ds q u
        (r.1, d :: r.2)

/-- Modelled from the spec: `dbService.updateMany` — merge the partial
record into every matching record; result is the count of matches. -/
def dbUpdateMany (store : List Obj) (q u : Obj) : Nat × List Obj :=
  (store.countP (matchQ q),
   store.map (fun d => if matchQ q d then mergeObj d u else d))

/-- Modelled from the spec: `dbService.deleteOne` — remove the first
matching record. -/
def dbDeleteOne : List Obj → Obj → Option Obj × List Obj
  | [], _ => (none, [])
  | d :: ds, q =>
      if matchQ q d then (some d, ds)
      else
        let r := dbDeleteOne ds q
        (r.1, d :: r.2)

/-- Modelled from the spec: the oracle describing a healthy store with
contents `store` (no primitive fails). -/
def dbOracle (store : List Obj) : StoreOracle where
  onCreateOne := fun d => .ok d
  onCreateMany := fun ds => .ok ds
  onFindOne := fun q _ => .ok (store.find? (matchQ q))
  onCount := fun q => .ok (store.countP (matchQ q))
  onPaginate := fun q _ =>
    .ok (some [(kData, .vArr ((store.filter (matchQ q)).map Value.vObj))])
  onUpdateOne := fun q u => .ok (dbUpdateOne store q u).1
  onUpdateMany := fun q u => .ok (dbUpdateMany store q u).1
  onDeleteOne := fun q => .ok (dbDeleteOne store q).1
  onDeleteMany := fun q => .ok (store.countP (matchQ q))

/-- Modelled from the spec: the effect of one store call on the store
contents. -/
def applyCall (store : List Obj) : StoreCall → List Obj
  | .createOne d => store ++ [d]
  | .createMany ds => store ++ ds
  | .findOne _ _ => store
  | .countDocs _ => store
  | .paginateDocs _ _ => store
  | .updateOne q u => (dbUpdateOne store q u).2
  | .updateMany q u => (dbUpdateMany store q u).2
  | .deleteOne q => (dbDeleteOne store q).2
  | .deleteManyDocs q => store.filter (fun d => !(matchQ q d))

/-- The effect of a trace of store calls, in order. -/
def applyCalls (store : List Obj) (cs : List StoreCall) : List Obj :=
  cs.foldl applyCall store

/-- Running an action against the healthy store `store`: the trace it
produces and the store contents afterwards.  (Every action issues at
most one store call, so answering all calls from the initial contents
is exact.) -/
def runOn (store : List Obj) (act : StoreOracle → Trace) :
    Trace × List Obj :=
  let t := act (dbOracle store)
  (t, applyCalls store t.2)

/-! ## Object algebra -/

theorem Obj.get_cons (k : String) (v : Value) (rest : Obj) (key : String) :
    Obj.get ((k, v) :: rest) key = if k = key then some v else Obj.get rest key :=
  rfl

theorem Obj.del_cons (k : String) (v : Value) (rest : Obj) (key : String) :
    Obj.del ((k, v) :: rest) key =
      if k = key then Obj.del rest key else (k, v) :: Obj.del rest key :=
  rfl

theorem Obj.get_append_of_none {a : Obj} {k : String} (b : Obj)
    (h : Obj.get a k = none) : Obj.get (a ++ b) k = Obj.get b k := by
  induction a with
  | nil => rfl
  | cons kv rest ih =>
      obtain ⟨k1, v1⟩ := kv
      rw [Obj.get_cons] at h
      by_cases hk : k1 = k
      · rw [if_pos hk] at h
        exact Option.noConfusion h
      · rw [if_neg hk] at h
        rw [List.cons_append, Obj.get_cons, if_neg hk]
        exact ih h

theorem Obj.get_append_of_some {a : Obj} {k : String} {v : Value} (b : Obj)
    (h : Obj.get a k = some v) : Obj.get (a ++ b) k = some v := by
  induction a with
  | nil => exact Option.noConfusion h
  | cons kv rest ih =>
      obtain ⟨k1, v1⟩ := kv
      rw [Obj.get_cons] at h
      rw [List.cons_append, Obj.get_cons]
      by_cases hk : k1 = k
      · rwa [if_pos hk] at h ⊢
      · rw [if_neg hk] at h ⊢
        exact ih h

theorem Obj.get_del_self (o : Obj) (k : String) :
    Obj.get (Obj.del o k) k = none := by
  induction o with
  | nil => rfl
  | cons kv rest ih =>
      obtain ⟨k1, v1⟩ := kv
      rw [Obj.del_cons]
      by_cases hk : k1 = k
      · rw [if_pos hk]; exact ih
      · rw [if_neg hk, Obj.get_cons, if_neg hk]; exact ih

theorem Obj.get_del_ne {k key : String} (o : Obj) (h : k ≠ key) :
    Obj.get (Obj.del o key) k = Obj.get o k := by
  induction o with
  | nil => rfl
  | cons kv rest ih =>
      obtain ⟨k1, v1⟩ := kv
      rw [Obj.del_cons, Obj.get_cons]
      by_cases hdel : k1 = key
      · rw [if_pos hdel, if_neg (fun he : k1 = k => h (he ▸ hdel))]
        exact ih
      · rw [if_neg hdel, Obj.get_cons]
        exact if_congr Iff.rfl rfl ih

theorem Obj.get_set_self (o : Obj) (k : String) (v : Value) :
    Obj.get (Obj.set o k v) k = some v := by
  rw [Obj.set, Obj.get_append_of_none _ (Obj.get_del_self o k), Obj.get_cons,
    if_pos rfl]

theorem Obj.get_set_ne {k key : String} (o : Obj) (v : Value) (h : k ≠ key) :
    Obj.get (Obj.set o key v) k = Obj.get o k := by
  rw [Obj.set]
  cases hgo : Obj.get (Obj.del o key) k with
  | none =>
      rw [Obj.get_append_of_none _ hgo, Obj.get_cons,
        if_neg (fun he : key = k => h he.symm), ← Obj.get_del_ne o h, hgo]
      rfl
  | some w =>
      rw [Obj.get_append_of_some _ hgo, ← Obj.get_del_ne o h, hgo]

theorem Obj.del_append (a b : Obj) (k : String) :
    Obj.del (a ++ b) k = Obj.del a k ++ Obj.del b k := by
  induction a with
  | nil => rfl
  | cons kv rest ih =>
      obtain ⟨k1, v1⟩ := kv
      rw [List.cons_append, Obj.del_cons, Obj.del_cons]
      by_cases hk : k1 = k
      · rw [if_pos hk, if_pos hk, ih]
      · rw [if_neg hk, if_neg hk, List.cons_append, ih]

theorem Obj.del_del_self (o : Obj) (k : String) :
    Obj.del (Obj.del o k) k = Obj.del o k := by
  induction o with
  | nil => rfl
  | cons kv rest ih =>
      obtain ⟨k1, v1⟩ := kv
      rw [Obj.del_cons]
      by_cases hk : k1 = k
      · rw [if_pos hk]; exact ih
      · rw [if_neg hk, Obj.del_cons, if_neg hk, ih]

theorem Obj.del_del_comm (o : Obj) (a b : String) :
    Obj.del (Obj.del o a) b = Obj.del (Obj.del o b) a := by
  induction o with
  | nil => rfl
  | cons kv rest ih =>
      obtain ⟨k1, v1⟩ := kv
      rw [Obj.del_cons, Obj.del_cons]
      by_cases ha : k1 = a <;> by_cases hb : k1 = b
      · rw [if_pos ha, if_pos hb, ih]
      · rw [if_pos ha, if_neg hb, Obj.del_cons, if_pos ha, ih]
      · rw [if_neg ha, if_pos hb, Obj.del_cons, if_pos hb, ih]
      · rw [if_neg ha, if_neg hb, Obj.del_cons, Obj.del_cons, if_neg ha,
          if_neg hb, ih]

/-- The value bound after a merge, for keys the update does not touch. -/
theorem mergeObj_get_not_mem (u : Obj) (d : Obj) (k : String)
    (h : ∀ kv ∈ u, kv.1 ≠ k) : Obj.get (mergeObj d u) k = Obj.get d k := by
  induction u generalizing d with
  | nil => rfl
  | cons kv rest ih =>
      have h1 : Obj.get (mergeObj (Obj.set d kv.1 kv.2) rest) k
          = Obj.get (Obj.set d kv.1 kv.2) k :=
        ih _ (fun x hx => h x (List.mem_cons_of_mem kv hx))
      have h2 : Obj.get (Obj.set d kv.1 kv.2) k = Obj.get d k :=
        Obj.get_set_ne _ _ (h kv (List.mem_cons_self kv rest)).symm
      show Obj.get (mergeObj (Obj.set d kv.1 kv.2) rest) k = Obj.get d k
      rw [h1, h2]

/-! ## Concrete fixtures used by witnesses and counterexamples -/

/-- A date parser accepting nothing (no claim depends on date parsing). -/
def noDate : String → Bool := fun _ => false

/-- A well-formed 24-hex store identifier. -/
def hexA : String := "aaaaaaaaaaaaaaaaaaaaaaaa"

/-- A caller identity. -/
def userU : Value := .vStr ("user00000000000000000001")

/-- A store oracle whose reads find nothing and whose writes affect
nothing; no primitive fails. -/
def noneOracle : StoreOracle where
  onCreateOne := fun d => .ok d
  onCreateMany := fun ds => .ok ds
  onFindOne := fun _ _ => .ok none
  onCount := fun _ => .ok 0
  onPaginate := fun _ _ => .ok none
  onUpdateOne := fun _ _ => .ok none
  onUpdateMany := fun _ _ => .ok 0
  onDeleteOne := fun _ => .ok none
  onDeleteMany := fun _ => .ok 0

/-- A store oracle on which every primitive fails with message `e`. -/
def failOracle (e : String) : StoreOracle where
  onCreateOne := fun _ => .error e
  onCreateMany := fun _ => .error e
  onFindOne := fun _ _ => .error e
  onCount := fun _ => .error e
  onPaginate := fun _ _ => .error e
  onUpdateOne := fun _ _ => .error e
  onUpdateMany := fun _ _ => .error e
  onDeleteOne := fun _ => .error e
  onDeleteMany := fun _ => .error e

/-! ## Claims -/

/-- C9: for every create action (add and bulkInsert) and every request
body, the record draft(s) sent to the store carry `addedBy` equal to the
authenticated caller's identifier, regardless of any `addedBy` supplied
in the body. -/
theorem c9_create_sets_addedBy (schema : Schema) (dateOk : String → Bool)
    (st : StoreOracle) (req : Request) :
    (∀ d, StoreCall.createOne d ∈ (addEntity schema dateOk st req).2 →
        Obj.get d kAddedBy = some req.userId) ∧
    (∀ ds, StoreCall.createMany ds ∈ (bulkInsertEntity st req).2 →
        ∀ d ∈ ds, Obj.get d kAddedBy = some req.userId) := by
  constructor
  · intro d hd
    unfold addEntity at hd
    dsimp only at hd
    split at hd
    · exact absurd hd (List.not_mem_nil _)
    · split at hd <;>
      · rw [List.mem_singleton] at hd
        cases hd
        exact Obj.get_set_self _ _ _
  · intro ds hds d hd
    unfold bulkInsertEntity at hds
    split at hds
    · rename_i xs heq
      dsimp only at hds
      split at hds
      · exact absurd hds (List.not_mem_nil _)
      · split at hds <;>
        · rw [List.mem_singleton] at hds
          cases hds
          obtain ⟨x, _, hx⟩ := List.mem_map.mp hd
          cases hx
          exact Obj.get_set_self _ _ _
    · exact absurd hds (List.not_mem_nil _)

/-- Witness for C9: a concrete add run issues exactly one create call,
whose draft carries the caller identity. -/
theorem c9_witness :
    Obj.get (Obj.set [] kAddedBy userU) kAddedBy = some userU := by
  apply (c9_create_sets_addedBy taskSchemaKeys noDate noneOracle
      ⟨none, [], userU⟩).1
  rw [show (addEntity taskSchemaKeys noDate noneOracle ⟨none, [], userU⟩).2
      = [StoreCall.createOne (Obj.set [] kAddedBy userU)] from rfl]
  exact List.mem_singleton.mpr rfl

/-- The bulk-argument shapes C4 speaks about: absent, an empty array, or
not an array. -/
def emptyOrNonArray (v : Option Value) : Prop :=
  v = none ∨ v = some (Value.vArr []) ∨ ∀ xs, v ≠ some (Value.vArr xs)

/-- C4: every bulk action (`bulkInsert`, `deleteMany`, `softDeleteMany`)
given an empty, non-array, or absent `data`/`ids` responds with a bad
request and issues no store call. -/
theorem c4_bulk_guards (st : StoreOracle) (req : Request)
    (hdata : emptyOrNonArray (Obj.get req.body kData))
    (hids : emptyOrNonArray (Obj.get req.body kIds)) :
    bulkInsertEntity st req = ([Response.badRequest none], []) ∧
    deleteManyEntity st req = ([Response.badRequest none], []) ∧
    softDeleteManyEntity st req = ([Response.badRequest none], []) := by
  refine ⟨?_, ?_, ?_⟩
  · unfold bulkInsertEntity
    rcases hdata with h | h | h
    · rw [h]
    · rw [h]
      rfl
    · cases hv : Obj.get req.body kData with
      | none => rfl
      | some v =>
          cases v <;> first
            | exact absurd hv (h _)
            | rfl
  · unfold deleteManyEntity
    rcases hids with h | h | h
    · rw [h]
    · rw [h]
      rfl
    · cases hv : Obj.get req.body kIds with
      | none => rfl
      | some v =>
          cases v <;> first
            | exact absurd hv (h _)
            | rfl
  · unfold softDeleteManyEntity
    rcases hids with h | h | h
    · rw [h]
    · rw [h]
      rfl
    · cases hv : Obj.get req.body kIds with
      | none => rfl
      | some v =>
          cases v <;> first
            | exact absurd hv (h _)
            | rfl

/-- Witness for C4: a request with an empty `data` array and a numeric
`ids` is rejected by all three bulk actions with no store call. -/
theorem c4_witness :
    bulkInsertTask noneOracle ⟨none, [(kData, Value.vArr []), (kIds, Value.vNum 3)], userU⟩
      = ([Response.badRequest none], []) ∧
    deleteManyTask noneOracle ⟨none, [(kData, Value.vArr []), (kIds, Value.vNum 3)], userU⟩
      = ([Response.badRequest none], []) ∧
    softDeleteManyTask noneOracle ⟨none, [(kData, Value.vArr []), (kIds, Value.vNum 3)], userU⟩
      = ([Response.badRequest none], []) := by
  apply c4_bulk_guards
  · exact Or.inr (Or.inl rfl)
  · refine Or.inr (Or.inr ?_)
    intro xs h
    rw [show Obj.get [(kData, Value.vArr []), (kIds, Value.vNum 3)] kIds
        = some (Value.vNum 3) from rfl] at h
    simp at h

/-- The `req.body.data` shapes C10 speaks about: absent, null, or not of
object type. -/
def dataNotAnObject (v : Option Value) : Prop :=
  match v with
  | none => True
  | some (.vObj _) => False
  | some (.vArr _) => False
  | some _ => True

/-- C10: a bulkUpdate whose `data` is absent, null, or not an object is
not rejected — the store's updateMany is still invoked with the given
filter and an empty update object, and the count it returns is reported
as success or not-found. -/
theorem c10_bulkUpdate_tolerates_missing_data (st : StoreOracle)
    (req : Request) (n : Nat)
    (hdata : dataNotAnObject (Obj.get req.body kData))
    (hok : st.onUpdateMany (bulkFilterOf req.body) [] = Except.ok n) :
    bulkUpdateEntity st req =
      if n = 0 then
        ([Response.recordNotFound],
         [StoreCall.updateMany (bulkFilterOf req.body) []])
      else
        ([Response.success (Value.vObj [(kCount, Value.vNum n)])],
         [StoreCall.updateMany (bulkFilterOf req.body) []]) := by
  have hnil : bulkDataOf req.userId req.body = [] := by
    unfold bulkDataOf
    cases hv : Obj.get req.body kData with
    | none => rfl
    | some v =>
        rw [hv] at hdata
        cases v <;> first
          | exact hdata.elim
          | rfl
  unfold bulkUpdateEntity
  dsimp only
  rw [hnil, hok]

/-- Witness for C10: a concrete bulkUpdate with a null `data` issues
updateMany with the filter and the empty update, and reports not-found
on a zero count. -/
theorem c10_witness :
    bulkUpdateTask noneOracle
        ⟨none, [(kFilter, Value.vObj [(kIsActive, Value.vBool true)]),
                (kData, Value.vNull)], userU⟩
      = ([Response.recordNotFound],
         [StoreCall.updateMany [(kIsActive, Value.vBool true)] []]) := by
  have h := c10_bulkUpdate_tolerates_missing_data noneOracle
      ⟨none, [(kFilter, Value.vObj [(kIsActive, Value.vBool true)]),
              (kData, Value.vNull)], userU⟩ 0 trivial rfl
  exact h

/-- A caller-chosen value for the creator field. -/
def intruder : Value := .vStr ("intruderId00000000000000")

/-- C1 (evaluation at the failing input): `update` and `bulkUpdate` do
NOT strip a caller-supplied `addedBy` — it reaches the updateOne and
updateMany payloads — while `partialUpdate` does strip it.  The dead
`delete dataToUpdate[addedBy]` of the bulk-update source acts on the
still-empty object and therefore does not affect the merged payload. -/
theorem c1_addedBy_reaches_update_payload :
    (bulkUpdateTask noneOracle
        ⟨none, [(kData, Value.vObj [(kAddedBy, intruder)])], userU⟩).2 =
      [StoreCall.updateMany [] [(kAddedBy, intruder), (kUpdatedBy, userU)]] ∧
    Obj.get [(kAddedBy, intruder), (kUpdatedBy, userU)] kAddedBy
      = some intruder ∧
    (updateTask noDate noneOracle ⟨some hexA, [(kAddedBy, intruder)], userU⟩).2 =
      [StoreCall.updateOne [(kId, Value.vStr hexA)]
        [(kAddedBy, intruder), (kUpdatedBy, userU)]] ∧
    (partialUpdateTask noDate noneOracle
        ⟨some hexA, [(kAddedBy, intruder)], userU⟩).2 =
      [StoreCall.updateOne [(kId, Value.vStr hexA)] [(kUpdatedBy, userU)]] :=
  ⟨rfl, rfl, rfl, rfl⟩

/-- A by-identifier request whose path identifier is not a 24-character
hexadecimal string. -/
def reqBadId : Request := ⟨some ("xyz"), [], userU⟩

/-- Counterexample to C2 as stated: `update` invoked with the non-hex
identifier `xyz` performs no identifier check — the store updateOne IS
invoked and the response is not-found rather than a validation error. -/
theorem c2_counterexample :
    isHex24 ("xyz") = false ∧
    (updateTask noDate noneOracle reqBadId).2 =
      [StoreCall.updateOne [(kId, Value.vStr ("xyz"))] [(kUpdatedBy, userU)]] ∧
    (updateTask noDate noneOracle reqBadId).1 = [Response.recordNotFound] :=
  ⟨rfl, rfl, rfl⟩

/-- C2 as amended: only the `get` action checks the identifier — given a
path identifier that is not a valid ObjectId it returns a validation
error and issues no store call.  (The other by-identifier actions pass
the identifier through unchecked, per the counterexample.) -/
theorem c2_amended_get_checks_id (st : StoreOracle) (req : Request)
    (h : objectIdIsValid req.paramsId = false) :
    getEntity st req = ([Response.validationError mInvalidObjectId], []) := by
  unfold getEntity
  rw [h]
  rfl

/-- Witness for the amended C2: `get` with identifier `xyz`. -/
theorem c2_witness :
    getTask noneOracle reqBadId
      = ([Response.validationError mInvalidObjectId], []) :=
  c2_amended_get_checks_id noneOracle reqBadId rfl

/-- C3 (evaluation at the failing input): a partialUpdate without a path
identifier invokes `res.badRequest` but does not return — validation
still runs, the store updateOne is still invoked (with an `undefined`
identifier in the query), and a second response is emitted. -/
theorem c3_partialUpdate_continues_after_badRequest :
    partialUpdateTask noDate noneOracle ⟨none, [], userU⟩ =
      ([Response.badRequest (some mIdRequired), Response.recordNotFound],
       [StoreCall.updateOne [(kId, Value.vUndef)] [(kUpdatedBy, userU)]]) :=
  rfl

/-- `List.find?` only depends on the predicate's values on the list. -/
theorem find_congr_on {α : Type} {l : List α} {f g : α → Bool}
    (h : ∀ a ∈ l, f a = g a) : l.find? f = l.find? g := by
  induction l with
  | nil => rfl
  | cons a t ih =>
      rw [List.find?_cons, List.find?_cons, h a (List.mem_cons_self a t)]
      cases hg : g a with
      | true => rfl
      | false => exact ih (fun x hx => h x (List.mem_cons_of_mem a hx))

/-- C7: schema validation is permissive — the validity result depends
only on the declared fields of the payload, so fields absent from the
schema never cause rejection; and the empty payload is always valid. -/
theorem c7_validation_permissive :
    (∀ (dateOk : String → Bool) (schema : Schema) (p q : Obj),
        (∀ kc ∈ schema, Obj.get p kc.1 = Obj.get q kc.1) →
        validateParamsWithJoi dateOk p schema
          = validateParamsWithJoi dateOk q schema) ∧
    (∀ (dateOk : String → Bool) (schema : Schema),
        (validateParamsWithJoi dateOk [] schema).isValid = true) := by
  constructor
  · intro dateOk schema p q h
    unfold validateParamsWithJoi
    rw [find_congr_on (fun kc hkc => by rw [h kc hkc])]
  · intro dateOk schema
    unfold validateParamsWithJoi
    rw [List.find?_eq_none.mpr (fun kc _ => by rw [show Obj.get [] kc.1 = none from rfl]; simp)]

/-- Witness for C7: a payload holding only a field unknown to the Task
schema validates exactly like the empty payload, which is valid. -/
theorem c7_witness :
    validateParamsWithJoi noDate [(("zzz" : String), Value.vNum 7)] taskSchemaKeys
      = validateParamsWithJoi noDate [] taskSchemaKeys ∧
    (validateParamsWithJoi noDate [] taskSchemaKeys).isValid = true := by
  constructor
  · apply c7_validation_permissive.1
    intro kc hkc
    simp only [taskSchemaKeys, List.mem_cons, List.not_mem_nil, or_false] at hkc
    rcases hkc with rfl | rfl | rfl | rfl | rfl | rfl | rfl | rfl | rfl | rfl <;>
      rfl
  · exact c7_validation_permissive.2 noDate taskSchemaKeys

/-- C8: no controller action lets a failure escape — every action on
every input emits at least one response, and when the store layer fails
the action that reached a store call reports internalServerError
carrying the underlying message. -/
theorem c8_failures_contained (schema filterKeys : Schema)
    (dateOk : String → Bool) (st : StoreOracle) (req : Request) (e : String) :
    ((addEntity schema dateOk st req).1 ≠ [] ∧
     (bulkInsertEntity st req).1 ≠ [] ∧
     (findAllEntity filterKeys dateOk st req).1 ≠ [] ∧
     (getEntity st req).1 ≠ [] ∧
     (getCountEntity filterKeys dateOk st req).1 ≠ [] ∧
     (updateEntity schema dateOk st req).1 ≠ [] ∧
     (bulkUpdateEntity st req).1 ≠ [] ∧
     (partialUpdateEntity schema dateOk st req).1 ≠ [] ∧
     (softDeleteEntity st req).1 ≠ [] ∧
     (deleteEntity st req).1 ≠ [] ∧
     (deleteManyEntity st req).1 ≠ [] ∧
     (softDeleteManyEntity st req).1 ≠ []) ∧
    (((addEntity schema dateOk (failOracle e) req).2 ≠ [] →
        Response.internalServerError e ∈ (addEntity schema dateOk (failOracle e) req).1) ∧
     ((bulkInsertEntity (failOracle e) req).2 ≠ [] →
        Response.internalServerError e ∈ (bulkInsertEntity (failOracle e) req).1) ∧
     ((findAllEntity filterKeys dateOk (failOracle e) req).2 ≠ [] →
        Response.internalServerError e ∈ (findAllEntity filterKeys dateOk (failOracle e) req).1) ∧
     ((getEntity (failOracle e) req).2 ≠ [] →
        Response.internalServerError e ∈ (getEntity (failOracle e) req).1) ∧
     ((getCountEntity filterKeys dateOk (failOracle e) req).2 ≠ [] →
        Response.internalServerError e ∈ (getCountEntity filterKeys dateOk (failOracle e) req).1) ∧
     ((updateEntity schema dateOk (failOracle e) req).2 ≠ [] →
        Response.internalServerError e ∈ (updateEntity schema dateOk (failOracle e) req).1) ∧
     ((bulkUpdateEntity (failOracle e) req).2 ≠ [] →
        Response.internalServerError e ∈ (bulkUpdateEntity (failOracle e) req).1) ∧
     ((partialUpdateEntity schema dateOk (failOracle e) req).2 ≠ [] →
        Response.internalServerError e ∈ (partialUpdateEntity schema dateOk (failOracle e) req).1) ∧
     ((softDeleteEntity (failOracle e) req).2 ≠ [] →
        Response.internalServerError e ∈ (softDeleteEntity (failOracle e) req).1) ∧
     ((deleteEntity (failOracle e) req).2 ≠ [] →
        Response.internalServerError e ∈ (deleteEntity (failOracle e) req).1) ∧
     ((deleteManyEntity (failOracle e) req).2 ≠ [] →
        Response.internalServerError e ∈ (deleteManyEntity (failOracle e) req).1) ∧
     ((softDeleteManyEntity (failOracle e) req).2 ≠ [] →
        Response.internalServerError e ∈ (softDeleteManyEntity (failOracle e) req).1)) := by
  refine ⟨⟨?_, ?_, ?_, ?_, ?_, ?_, ?_, ?_, ?_, ?_, ?_, ?_⟩,
          ?_, ?_, ?_, ?_, ?_, ?_, ?_, ?_, ?_, ?_, ?_, ?_⟩ <;>
    simp only [addEntity, bulkInsertEntity, findAllEntity, getEntity,
      getCountEntity, updateEntity, bulkUpdateEntity, partialUpdateEntity,
      softDeleteEntity, deleteEntity, deleteManyEntity, softDeleteManyEntity,
      failOracle] <;>
    (repeat' split) <;>
    simp

/-- Witness for C8: a concrete add against a failing store reaches the
create call and reports the failure message as an internal error. -/
theorem c8_witness :
    Response.internalServerError ("boom")
      ∈ (addEntity taskSchemaKeys noDate (failOracle ("boom")) ⟨none, [], userU⟩).1 := by
  apply (c8_failures_contained taskSchemaKeys taskFindFilterKeys noDate
      noneOracle ⟨none, [], userU⟩ ("boom")).2.1
  rw [show (addEntity taskSchemaKeys noDate (failOracle ("boom")) ⟨none, [], userU⟩).2
      = [StoreCall.createOne (Obj.set [] kAddedBy userU)] from rfl]
  simp

/-! ## Store lemmas for the soft-delete claims -/

theorem Obj.del_single_self (k : String) (v : Value) :
    Obj.del [(k, v)] k = [] := by
  rw [Obj.del_cons, if_pos rfl]
  rfl

theorem Obj.del_set_same (o : Obj) (k : String) (v : Value) :
    Obj.del (Obj.set o k v) k = Obj.del o k := by
  rw [Obj.set, Obj.del_append, Obj.del_del_self, Obj.del_single_self,
    List.append_nil]

theorem Obj.del_set_ne (o : Obj) {a k : String} (v : Value) (h : a ≠ k) :
    Obj.del (Obj.set o k v) a = Obj.set (Obj.del o a) k v := by
  rw [Obj.set, Obj.del_append, Obj.del_del_comm, Obj.del_cons,
    if_neg (fun hk : k = a => h hk.symm)]
  rfl

theorem Obj.set_set_same (o : Obj) (k : String) (v : Value) :
    Obj.set (Obj.set o k v) k v = Obj.set o k v := by
  show Obj.del (Obj.set o k v) k ++ [(k, v)] = _
  rw [Obj.del_set_same]
  rfl

theorem Obj.set_set_idem {a b : String} (o : Obj) (x y : Value) (h : a ≠ b) :
    Obj.set (Obj.set (Obj.set (Obj.set o a x) b y) a x) b y
      = Obj.set (Obj.set o a x) b y := by
  have hkey : Obj.set (Obj.del (Obj.set o a x) b) a x
      = Obj.del (Obj.set o a x) b := by
    rw [Obj.del_set_ne _ _ (fun hb : b = a => h hb.symm), Obj.set_set_same]
  calc Obj.set (Obj.set (Obj.set (Obj.set o a x) b y) a x) b y
      = Obj.del (Obj.set (Obj.set (Obj.set o a x) b y) a x) b ++ [(b, y)] := rfl
    _ = Obj.set (Obj.del (Obj.set (Obj.set o a x) b y) b) a x ++ [(b, y)] := by
        rw [Obj.del_set_ne _ _ (fun hb : b = a => h hb.symm)]
    _ = Obj.set (Obj.del (Obj.set o a x) b) a x ++ [(b, y)] := by
        rw [Obj.del_set_same]
    _ = Obj.del (Obj.set o a x) b ++ [(b, y)] := by rw [hkey]
    _ = Obj.set (Obj.set o a x) b y := rfl

/-- The keys of the soft-delete update body. -/
theorem softDeleteUpdateBody_keys (uid : Value) (k : String)
    (h1 : k ≠ kIsDeleted) (h2 : k ≠ kUpdatedBy) :
    ∀ kv ∈ softDeleteUpdateBody uid, (kv : String × Value).1 ≠ k := by
  intro kv hkv
  simp only [softDeleteUpdateBody, List.mem_cons, List.not_mem_nil, or_false]
    at hkv
  rcases hkv with rfl | rfl
  · exact fun he => h1 he.symm
  · exact fun he => h2 he.symm

/-- Merging the soft-delete body leaves every other field unchanged. -/
theorem merge_sd_get_frame (d : Obj) (uid : Value) (k : String)
    (h1 : k ≠ kIsDeleted) (h2 : k ≠ kUpdatedBy) :
    Obj.get (mergeObj d (softDeleteUpdateBody uid)) k = Obj.get d k :=
  mergeObj_get_not_mem _ _ _ (softDeleteUpdateBody_keys uid k h1 h2)

theorem merge_sd_get_isDeleted (d : Obj) (uid : Value) :
    Obj.get (mergeObj d (softDeleteUpdateBody uid)) kIsDeleted
      = some (Value.vBool true) := by
  show Obj.get (Obj.set (Obj.set d kIsDeleted (Value.vBool true)) kUpdatedBy uid)
      kIsDeleted = _
  rw [Obj.get_set_ne _ _ (by decide), Obj.get_set_self]

theorem merge_sd_get_updatedBy (d : Obj) (uid : Value) :
    Obj.get (mergeObj d (softDeleteUpdateBody uid)) kUpdatedBy = some uid := by
  show Obj.get (Obj.set (Obj.set d kIsDeleted (Value.vBool true)) kUpdatedBy uid)
      kUpdatedBy = _
  rw [Obj.get_set_self]

/-- Merging the soft-delete body twice is the same as merging it once. -/
theorem merge_sd_idem (d : Obj) (uid : Value) :
    mergeObj (mergeObj d (softDeleteUpdateBody uid)) (softDeleteUpdateBody uid)
      = mergeObj d (softDeleteUpdateBody uid) := by
  show Obj.set (Obj.set (Obj.set (Obj.set d kIsDeleted (Value.vBool true))
      kUpdatedBy uid) kIsDeleted (Value.vBool true)) kUpdatedBy uid = _
  exact Obj.set_set_idem d (Value.vBool true) uid (by decide)

/-- A field-wise match only looks at the record through `Obj.get`. -/
theorem matchField_congr {d1 d2 : Obj} {k : String}
    (h : Obj.get d1 k = Obj.get d2 k) (qv : Value) :
    matchField d1 k qv = matchField d2 k qv := by
  unfold matchField
  cases qv <;> rw [h]

/-- Merging the soft-delete body does not change whether a record matches
a by-identifier query. -/
theorem matchQ_sd_merge (s : String) (uid : Value) (d : Obj) :
    matchQ [(kId, Value.vStr s)] (mergeObj d (softDeleteUpdateBody uid))
      = matchQ [(kId, Value.vStr s)] d := by
  simp only [matchQ, List.all_cons, List.all_nil, Bool.and_true]
  exact matchField_congr
    (merge_sd_get_frame d uid kId (by decide) (by decide)) _

theorem dbUpdateOne_cons (d : Obj) (ds : List Obj) (q u : Obj) :
    dbUpdateOne (d :: ds) q u =
      if matchQ q d then (some (mergeObj d u), mergeObj d u :: ds)
      else ((dbUpdateOne ds q u).1, d :: (dbUpdateOne ds q u).2) := rfl

/-- updateOne never adds or removes a record. -/
theorem dbUpdateOne_length (store : List Obj) (q u : Obj) :
    (dbUpdateOne store q u).2.length = store.length := by
  induction store with
  | nil => rfl
  | cons d ds ih =>
      rw [dbUpdateOne_cons]
      cases hm : matchQ q d with
      | true =>
          rw [if_pos rfl]
          rfl
      | false =>
          rw [if_neg Bool.false_ne_true]
          simp [ih]

/-- updateOne leaves every position either untouched or replaced by the
merge of the matching record that was there. -/
theorem dbUpdateOne_frame (store : List Obj) (q u : Obj) (i : Nat) :
    (dbUpdateOne store q u).2.get? i = store.get? i ∨
    ∃ d, store.get? i = some d ∧ matchQ q d = true ∧
      (dbUpdateOne store q u).2.get? i = some (mergeObj d u) := by
  induction store generalizing i with
  | nil => exact Or.inl rfl
  | cons d ds ih =>
      rw [dbUpdateOne_cons]
      cases hm : matchQ q d with
      | true =>
          rw [if_pos rfl]
          cases i with
          | zero => exact Or.inr ⟨d, rfl, hm, rfl⟩
          | succ j => exact Or.inl rfl
      | false =>
          rw [if_neg Bool.false_ne_true]
          cases i with
          | zero => exact Or.inl rfl
          | succ j =>
              rcases ih j with h | ⟨x, hx, hmx, hx2⟩
              · exact Or.inl h
              · exact Or.inr ⟨x, hx, hmx, hx2⟩

/-- updateOne returns a record whenever some record matches. -/
theorem dbUpdateOne_some_of_match (store : List Obj) (q u : Obj)
    (h : ∃ d ∈ store, matchQ q d = true) :
    ∃ r, (dbUpdateOne store q u).1 = some r := by
  induction store with
  | nil =>
      obtain ⟨x, hx, _⟩ := h
      exact absurd hx (List.not_mem_nil x)
  | cons d ds ih =>
      rw [dbUpdateOne_cons]
      cases hm : matchQ q d with
      | true => exact ⟨mergeObj d u, by rw [if_pos rfl]⟩
      | false =>
          obtain ⟨x, hx, hmx⟩ := h
          rcases List.mem_cons.mp hx with rfl | hxt
          · rw [hm] at hmx
            exact absurd hmx (by simp)
          · obtain ⟨r, hr⟩ := ih ⟨x, hxt, hmx⟩
            exact ⟨r, by rw [if_neg Bool.false_ne_true]; exact hr⟩

/-- A soft delete leaves a record matching the same identifier in the
store. -/
theorem dbUpdateOne_sd_match (store : List Obj) (s : String) (uid : Value)
    (h : ∃ d ∈ store, matchQ [(kId, Value.vStr s)] d = true) :
    ∃ d2 ∈ (dbUpdateOne store [(kId, Value.vStr s)]
        (softDeleteUpdateBody uid)).2,
      matchQ [(kId, Value.vStr s)] d2 = true := by
  induction store with
  | nil =>
      obtain ⟨x, hx, _⟩ := h
      exact absurd hx (List.not_mem_nil x)
  | cons d ds ih =>
      rw [dbUpdateOne_cons]
      cases hm : matchQ [(kId, Value.vStr s)] d with
      | true =>
          refine ⟨mergeObj d (softDeleteUpdateBody uid), ?_, ?_⟩
          · rw [if_pos rfl]
            exact List.mem_cons_self _ _
          · rw [matchQ_sd_merge]
            exact hm
      | false =>
          obtain ⟨x, hx, hmx⟩ := h
          rcases List.mem_cons.mp hx with rfl | hxt
          · rw [hm] at hmx
            exact absurd hmx (by simp)
          · obtain ⟨y, hy, hmy⟩ := ih ⟨x, hxt, hmx⟩
            refine ⟨y, ?_, hmy⟩
            rw [if_neg Bool.false_ne_true]
            exact List.mem_cons_of_mem d hy

/-- Applying the soft-delete updateOne a second time does not change the
store again. -/
theorem dbUpdateOne_sd_idem (store : List Obj) (s : String) (uid : Value) :
    (dbUpdateOne (dbUpdateOne store [(kId, Value.vStr s)]
          (softDeleteUpdateBody uid)).2
        [(kId, Value.vStr s)] (softDeleteUpdateBody uid)).2
      = (dbUpdateOne store [(kId, Value.vStr s)]
          (softDeleteUpdateBody uid)).2 := by
  induction store with
  | nil => rfl
  | cons d ds ih =>
      cases hm : matchQ [(kId, Value.vStr s)] d with
      | true =>
          rw [dbUpdateOne_cons, if_pos hm]
          dsimp only
          rw [dbUpdateOne_cons, if_pos (by rw [matchQ_sd_merge]; exact hm)]
          dsimp only
          rw [merge_sd_idem]
      | false =>
          rw [dbUpdateOne_cons, if_neg (by simp [hm])]
          dsimp only
          rw [dbUpdateOne_cons, if_neg (by simp [hm])]
          dsimp only
          rw [ih]

/-- `find?` succeeds when a witness is in the list. -/
theorem find_some_of_exists {α : Type} {p : α → Bool} {l : List α}
    (h : ∃ x ∈ l, p x = true) : ∃ y, l.find? p = some y := by
  induction l with
  | nil =>
      obtain ⟨x, hx, _⟩ := h
      exact absurd hx (List.not_mem_nil x)
  | cons a t ih =>
      cases hp : p a with
      | true => exact ⟨a, by rw [List.find?_cons, hp]⟩
      | false =>
          obtain ⟨x, hx, hpx⟩ := h
          rcases List.mem_cons.mp hx with rfl | hxt
          · rw [hp] at hpx
            exact absurd hpx (by simp)
          · obtain ⟨y, hy⟩ := ih ⟨x, hxt, hpx⟩
            exact ⟨y, by rw [List.find?_cons, hp]; exact hy⟩

/-- The store calls of a soft delete with a present identifier: exactly
one updateOne. -/
theorem softDelete_trace (st : StoreOracle) (req : Request) (s : String)
    (hid : req.paramsId = some s) (hs : s ≠ "") :
    (softDeleteEntity st req).2
      = [StoreCall.updateOne [(kId, Value.vStr s)]
          (softDeleteUpdateBody req.userId)] := by
  unfold softDeleteEntity
  have hg : (!truthyParam req.paramsId) = false := by
    rw [hid]
    simp [truthyParam, hs]
  rw [hg, if_neg Bool.false_ne_true, hid]
  dsimp only
  split <;> rfl

/-- The store after a soft delete on a healthy store is the updateOne
merge. -/
theorem softDelete_run_store (store : List Obj) (req : Request) (s : String)
    (hid : req.paramsId = some s) (hs : s ≠ "") :
    (runOn store (fun o => softDeleteEntity o req)).2
      = (dbUpdateOne store [(kId, Value.vStr s)]
          (softDeleteUpdateBody req.userId)).2 := by
  unfold runOn
  dsimp only
  rw [softDelete_trace (dbOracle store) req s hid hs]
  rfl

/-- A soft delete of an identifier that matches a stored record reports
success. -/
theorem softDelete_run_success (store : List Obj) (req : Request) (s : String)
    (hid : req.paramsId = some s) (hs : s ≠ "")
    (hfound : ∃ d ∈ store, matchQ [(kId, Value.vStr s)] d = true) :
    ∃ d1, (runOn store (fun o => softDeleteEntity o req)).1.1
      = [Response.success (Value.vObj d1)] := by
  obtain ⟨r, hr⟩ := dbUpdateOne_some_of_match store [(kId, Value.vStr s)]
    (softDeleteUpdateBody req.userId) hfound
  refine ⟨r, ?_⟩
  unfold runOn
  dsimp only
  unfold softDeleteEntity
  have hg : (!truthyParam req.paramsId) = false := by
    rw [hid]
    simp [truthyParam, hs]
  rw [hg, if_neg Bool.false_ne_true, hid]
  simp only [dbOracle, optToVal]
  rw [hr]

/-- C5: soft delete is an update, never a removal — the only store call
the soft-delete actions ever issue is updateOne/updateMany with exactly
`isDeleted: true` and `updatedBy`; on a healthy store the record count
is preserved, fields other than those two keep their values, and a
subsequent get by the same identifier still finds the record. -/
theorem c5_softDelete_is_update (st : StoreOracle) (req : Request)
    (store : List Obj) (s : String)
    (hid : req.paramsId = some s) (hs : s ≠ "") (hex : isHex24 s = true)
    (hfound : ∃ d ∈ store, matchQ [(kId, Value.vStr s)] d = true) :
    (∀ c ∈ (softDeleteEntity st req).2,
        c = StoreCall.updateOne [(kId, Value.vStr s)]
              (softDeleteUpdateBody req.userId)) ∧
    (∀ c ∈ (softDeleteManyEntity st req).2, ∃ xs,
        Obj.get req.body kIds = some (Value.vArr xs) ∧
        c = StoreCall.updateMany [(kId, Value.vObj [(kIn, Value.vArr xs)])]
              (softDeleteUpdateBody req.userId)) ∧
    ((runOn store (fun o => softDeleteEntity o req)).2.length
        = store.length ∧
     (∀ i d, store.get? i = some d →
        ∃ d2, (runOn store (fun o => softDeleteEntity o req)).2.get? i
            = some d2 ∧
          (∀ k, k ≠ kIsDeleted → k ≠ kUpdatedBy →
              Obj.get d2 k = Obj.get d k) ∧
          (d2 = d ∨ (Obj.get d2 kIsDeleted = some (Value.vBool true) ∧
                     Obj.get d2 kUpdatedBy = some req.userId))) ∧
     (∃ d2, getEntity
          (dbOracle (runOn store (fun o => softDeleteEntity o req)).2) req
        = ([Response.success (Value.vObj d2)],
           [StoreCall.findOne [(kId, Value.vStr s)] []]))) := by
  refine ⟨?_, ?_, ?_, ?_, ?_⟩
  · intro c hc
    rw [softDelete_trace st req s hid hs] at hc
    exact List.mem_singleton.mp hc
  · intro c hc
    unfold softDeleteManyEntity at hc
    split at hc
    · rename_i xs heq
      split at hc
      · exact absurd hc (List.not_mem_nil _)
      · dsimp only at hc
        split at hc <;> first
          | exact ⟨xs, heq, List.mem_singleton.mp hc⟩
          | (split at hc <;> exact ⟨xs, heq, List.mem_singleton.mp hc⟩)
    · exact absurd hc (List.not_mem_nil _)
  · rw [softDelete_run_store store req s hid hs]
    exact dbUpdateOne_length store _ _
  · intro i d hd
    rw [softDelete_run_store store req s hid hs]
    rcases dbUpdateOne_frame store [(kId, Value.vStr s)]
        (softDeleteUpdateBody req.userId) i with h | ⟨x, hx, hmx, hx2⟩
    · exact ⟨d, by rw [h, hd], fun k _ _ => rfl, Or.inl rfl⟩
    · rw [hd] at hx
      cases Option.some.inj hx
      exact ⟨mergeObj d (softDeleteUpdateBody req.userId), hx2,
        fun k h1 h2 => merge_sd_get_frame d _ k h1 h2,
        Or.inr ⟨merge_sd_get_isDeleted d _, merge_sd_get_updatedBy d _⟩⟩
  · obtain ⟨d2, hfind⟩ :=
      find_some_of_exists (dbUpdateOne_sd_match store s req.userId hfound)
    refine ⟨d2, ?_⟩
    rw [softDelete_run_store store req s hid hs]
    unfold getEntity
    have hg : (!objectIdIsValid req.paramsId) = false := by
      rw [hid]
      simp [objectIdIsValid, hex]
    rw [hg, if_neg Bool.false_ne_true, hid]
    simp only [dbOracle, optToVal]
    rw [hfind]

/-- A record already in the store, carrying the identifier `hexA`. -/
def taskDoc0 : Obj := [(kId, Value.vStr hexA), (kTitle, Value.vStr ("hello"))]

/-- A one-record healthy store. -/
def taskStore0 : List Obj := [taskDoc0]

/-- A soft-delete request for `hexA`. -/
def reqSd : Request := ⟨some hexA, [], userU⟩

/-- Witness for C5: soft-deleting the one stored record preserves the
record count. -/
theorem c5_witness :
    (runOn taskStore0 (fun o => softDeleteEntity o reqSd)).2.length
      = taskStore0.length :=
  (c5_softDelete_is_update noneOracle reqSd taskStore0 hexA rfl (by decide)
      rfl ⟨taskDoc0, List.mem_cons_self _ _, rfl⟩).2.2.1

/-- C6: softDelete is idempotent — on a store containing a record with
the given identifier, running it twice leaves the same store as running
it once, and both runs (the second included) report success, not
not-found. -/
theorem c6_softDelete_idempotent (store : List Obj) (req : Request)
    (s : String) (hid : req.paramsId = some s) (hs : s ≠ "")
    (hfound : ∃ d ∈ store, matchQ [(kId, Value.vStr s)] d = true) :
    (runOn (runOn store (fun o => softDeleteEntity o req)).2
        (fun o => softDeleteEntity o req)).2
      = (runOn store (fun o => softDeleteEntity o req)).2 ∧
    (∃ d1, (runOn store (fun o => softDeleteEntity o req)).1.1
        = [Response.success (Value.vObj d1)]) ∧
    (∃ d2, (runOn (runOn store (fun o => softDeleteEntity o req)).2
        (fun o => softDeleteEntity o req)).1.1
        = [Response.success (Value.vObj d2)]) := by
  have hst1 := softDelete_run_store store req s hid hs
  refine ⟨?_, ?_, ?_⟩
  · rw [hst1, softDelete_run_store _ req s hid hs]
    exact dbUpdateOne_sd_idem store s req.userId
  · exact softDelete_run_success store req s hid hs hfound
  · refine softDelete_run_success _ req s hid hs ?_
    rw [hst1]
    exact dbUpdateOne_sd_match store s req.userId hfound

/-- Witness for C6: soft-deleting the one stored record twice. -/
theorem c6_witness :
    (runOn (runOn taskStore0 (fun o => softDeleteEntity o reqSd)).2
        (fun o => softDeleteEntity o reqSd)).2
      = (runOn taskStore0 (fun o => softDeleteEntity o reqSd)).2 ∧
    (∃ d1, (runOn taskStore0 (fun o => softDeleteEntity o reqSd)).1.1
        = [Response.success (Value.vObj d1)]) ∧
    (∃ d2, (runOn (runOn taskStore0 (fun o => softDeleteEntity o reqSd)).2
        (fun o => softDeleteEntity o reqSd)).1.1
        = [Response.success (Value.vObj d2)]) :=
  c6_softDelete_idempotent taskStore0 reqSd hexA rfl (by decide)
    ⟨taskDoc0, List.mem_cons_self _ _, rfl⟩

end LearnGit
